import Mathlib

/-!
Shallow embedding of the element-local residual evaluator
(`dumux/boxmodels/common/boxlocalresidual.hh`, class `BoxLocalResidual`)
and of the MPFA-O velocity engine
(`dumux/decoupled/2p/diffusion/fvmpfa/fvmpfaovelocity2p.hh`, class
`FVMPFAOVelocity2P`).  Machine doubles are modelled as exact rationals;
the claims settled here are about the structure and control flow of the
arithmetic, not about rounding.
-/

namespace BoxResidual

/-- Local residual accumulator: one scalar per (sub-control volume,
equation) pair; mirrors `ElementSolutionVector residual_` with
`nV = fvElemGeom_().numVertices` and `nE = numEq`. -/
def Res (nV nE : ℕ) : Type := Fin nV → Fin nE → ℚ

/-- Inputs of one local residual evaluation.  Everything the evaluator
reads through its collaborator pointers (`fvElemGeomPtr_`, `bcTypesPtr_`,
`curVolVarsPtr_`, `prevVolVarsPtr_`, the problem) during one call of
`BoxLocalResidual::eval(element, fvGeom, prevVolVars, curVolVars, bcTypes)`
is gathered as read-only data.  The CRTP hooks `computeFlux`,
`computeStorage` and `computeSource` of the concrete model are arbitrary
functions of the local state, hence parameters here.  `storage b i e` is
the storage of equation `e` in sub-volume `i`, with `b = true` meaning the
previous-time-step solution (`isOldSol` in the source). -/
structure EvalInput (nV nE : ℕ) where
  /-- Mirrors `subContVolFace[k].i, .j` for each of the `numEdges` faces,
  listed in increasing `k`. -/
  faces : List (Fin nV × Fin nV)
  /-- Mirrors `computeFlux(flux, k)` of the model implementation. -/
  computeFlux : ℕ → Fin nE → ℚ
  /-- Mirrors `computeStorage(result, i, isOldSol)` of the model implementation. -/
  storage : Bool → Fin nV → Fin nE → ℚ
  /-- Mirrors `computeSource(source, i)` of the model implementation. -/
  source : Fin nV → Fin nE → ℚ
  /-- Mirrors `fvElemGeom_().subContVol[i].volume`. -/
  volume : Fin nV → ℚ
  /-- Mirrors `problem_().timeManager().timeStepSize()`. -/
  dt : ℚ
  /-- Mirrors `bcTypes_(i).isDirichlet(eqIdx)`. -/
  isDirichlet : Fin nV → Fin nE → Bool
  /-- Mirrors `bcTypes_(i).eqToDirichletIndex(eqIdx)` (the primary-variable index
  belonging to a Dirichlet equation). -/
  eqToDirichletIndex : Fin nV → Fin nE → Fin nE
  /-- Mirrors `bcTypes_(i).isNeumann(eqIdx)` (equation-wise Neumann flag of the
  boundary classification). -/
  isNeumann : Fin nV → Fin nE → Bool
  /-- The boundary segments visited by `evalNeumann_`: for each
  (boundary face, face vertex) pair, the sub-control volume index
  `scvIdx`, the boundary face area
  `fvElemGeom_().boundaryFace[boundaryFaceIdx].area`, and the flux vector
  the problem writes in `problem_().neumann(values, ...)`. -/
  neumannSegs : List (Fin nV × ℚ × (Fin nE → ℚ))
  /-- Mirrors `curPrimaryVars_(i)`. -/
  curPrimaryVars : Fin nV → Fin nE → ℚ
  /-- the values the problem writes in `problem_().dirichlet(tmp, vertex i)`. -/
  dirichletValues : Fin nV → Fin nE → ℚ

/-- One face update of `evalFluxes_`: `residual_[i][eq] -= flux[eq];
residual_[j][eq] += flux[eq]` for every equation.  Written in compensated
form so that the (degenerate) case `i = j` has the same net effect as the
two sequential in-place updates of the source. -/
def applyFaceFlux {nV nE : ℕ} (i j : Fin nV) (flux : Fin nE → ℚ)
    (res : Res nV nE) : Res nV nE :=
  fun v e =>
    res v e + (if v = j then flux e else 0) - (if v = i then flux e else 0)

/-- The loop of `evalFluxes_` over the face index `k`. -/
def evalFluxesAux {nV nE : ℕ} (cf : ℕ → Fin nE → ℚ) :
    ℕ → List (Fin nV × Fin nV) → Res nV nE → Res nV nE
  | _, [], res => res
  | k, (i, j) :: rest, res =>
      evalFluxesAux cf (k + 1) rest (applyFaceFlux i j (cf k) res)

/-- Mirrors `BoxLocalResidual::evalFluxes_`: for every sub-control-volume face
`k` joining sub-volumes `i` and `j`, compute one flux vector and subtract
it from `residual_[i]`, add it to `residual_[j]`. -/
def evalFluxes_ {nV nE : ℕ} (inp : EvalInput nV nE) (res : Res nV nE) :
    Res nV nE :=
  evalFluxesAux inp.computeFlux 0 inp.faces res

/-- Mirrors `BoxLocalResidual::evalVolumeTerms_`, written with the same
intermediate values as the source: `massContrib` is the storage
difference, scaled in place by `volume / dt` and added; the source is
scaled in place by `volume` and subtracted. -/
def evalVolumeTerms_ {nV nE : ℕ} (inp : EvalInput nV nE)
    (res : Res nV nE) : Res nV nE :=
  fun i e =>
    let massContrib := inp.storage false i e - inp.storage true i e
    let massContrib2 := massContrib * (inp.volume i / inp.dt)
    let afterStorage := res i e + massContrib2
    let source2 := inp.source i e * inp.volume i
    afterStorage - source2

/-- Mirrors `BoxLocalResidual::evalStorage_` (reached through the public
`evalStorage` entry point): `residual_[i] = 0`, then
`computeStorage(residual_[i], i, false)`, then
`residual_[i] *= subContVol[i].volume`. -/
def evalStorage_ {nV nE : ℕ} (inp : EvalInput nV nE) : Res nV nE :=
  fun i e => inp.storage false i e * inp.volume i

/-- Mirrors `BoundaryTypes::hasNeumann` of a single sub-control volume: some
equation is Neumann-classified. -/
def scvHasNeumann {nV nE : ℕ} (inp : EvalInput nV nE) (i : Fin nV) : Prop :=
  ∃ e, inp.isNeumann i e = true

instance {nV nE : ℕ} (inp : EvalInput nV nE) (i : Fin nV) :
    Decidable (scvHasNeumann inp i) :=
  Fintype.decidableExistsFintype

/-- Modelled from the spec: `ElementBoundaryTypes::hasNeumann` (the class
is not under src/); per the spec the boundary pass runs "if any
sub-volume has Neumann conditions". -/
def elemHasNeumann {nV nE : ℕ} (inp : EvalInput nV nE) : Prop :=
  ∃ i, scvHasNeumann inp i

instance {nV nE : ℕ} (inp : EvalInput nV nE) :
    Decidable (elemHasNeumann inp) :=
  Fintype.decidableExistsFintype

/-- Mirrors `BoundaryTypes::hasDirichlet` of a single sub-control volume. -/
def scvHasDirichlet {nV nE : ℕ} (inp : EvalInput nV nE) (i : Fin nV) : Prop :=
  ∃ e, inp.isDirichlet i e = true

instance {nV nE : ℕ} (inp : EvalInput nV nE) (i : Fin nV) :
    Decidable (scvHasDirichlet inp i) :=
  Fintype.decidableExistsFintype

/-- Modelled from the spec: `ElementBoundaryTypes::hasDirichlet` (the
class is not under src/); per the spec the Dirichlet pass runs "if any
sub-volume has Dirichlet conditions". -/
def elemHasDirichlet {nV nE : ℕ} (inp : EvalInput nV nE) : Prop :=
  ∃ i, scvHasDirichlet inp i

instance {nV nE : ℕ} (inp : EvalInput nV nE) :
    Decidable (elemHasDirichlet inp) :=
  Fintype.decidableExistsFintype

/-- Mirrors `BoxLocalResidual::evalNeumannSegment_`: if the sub-control volume
has any Neumann-classified equation, the whole vector written by
`problem_().neumann`, scaled by the boundary face area, is added to
`residual_[scvIdx]` — every component, without masking by the
per-equation classification. -/
def evalNeumannSegment_ {nV nE : ℕ} (inp : EvalInput nV nE)
    (scvIdx : Fin nV) (area : ℚ) (values : Fin nE → ℚ)
    (res : Res nV nE) : Res nV nE :=
  if scvHasNeumann inp scvIdx then
    fun v e => if v = scvIdx then res v e + values e * area else res v e
  else
    res

/-- Mirrors `BoxLocalResidual::evalNeumann_`: visit each boundary segment in
turn. -/
def evalNeumann_ {nV nE : ℕ} (inp : EvalInput nV nE) (res : Res nV nE) :
    Res nV nE :=
  inp.neumannSegs.foldl
    (fun r seg => evalNeumannSegment_ inp seg.1 seg.2.1 seg.2.2 r) res

/-- Mirrors `BoxLocalResidual::evalDirichlet_`: for every sub-volume and every
Dirichlet-classified equation `e`, overwrite the residual entry with
`curPrimaryVars_(i)[pvIdx] - dirichlet(i)[pvIdx]` where
`pvIdx = eqToDirichletIndex(e)`; other entries are untouched. -/
def evalDirichlet_ {nV nE : ℕ} (inp : EvalInput nV nE) (res : Res nV nE) :
    Res nV nE :=
  fun i e =>
    if inp.isDirichlet i e = true then
      inp.curPrimaryVars i (inp.eqToDirichletIndex i e)
        - inp.dirichletValues i (inp.eqToDirichletIndex i e)
    else
      res i e

/-- Mirrors `BoxLocalResidual::eval(element, fvGeom, prevVolVars, curVolVars,
bcTypes)`: resize the residual and zero it, run the flux pass, the
volume-term pass, then — guarded by the element-level flags — the Neumann
and Dirichlet boundary passes.  `res0` is the evaluator's residual state
left over from an earlier call; the source overwrites it
(`residual_.resize(numVerts); residual_ = 0;`). -/
def eval (nV nE : ℕ) (inp : EvalInput nV nE) (res0 : Res nV nE) :
    Res nV nE :=
  let zeroed : Res nV nE := fun _ _ => 0
  let afterFlux := evalFluxes_ inp zeroed
  let afterVolume := evalVolumeTerms_ inp afterFlux
  let afterNeumann :=
    if elemHasNeumann inp then evalNeumann_ inp afterVolume else afterVolume
  let afterDirichlet :=
    if elemHasDirichlet inp then evalDirichlet_ inp afterNeumann
    else afterNeumann
  afterDirichlet

/-- Mirrors `BoxLocalResidual::eval(element)` (the one-argument convenience
entry point): it rebuilds the local geometry and volume variables, calls
`problem_().updateCouplingParams(element)` — an arbitrary hook of the
problem collaborator that may mutate the problem's state — and then
delegates to the five-argument `eval`.  The problem state is of an
abstract type `α` and the hook is an arbitrary `α → α`, mirroring that
the evaluator places no constraint on what the hook does.  The result is
the problem state after the call together with the residual. -/
def evalElement {α : Type} (nV nE : ℕ)
    (updateCouplingParams : α → α) (problemState : α)
    (inp : EvalInput nV nE) (res0 : Res nV nE) : α × Res nV nE :=
  (updateCouplingParams problemState, eval nV nE inp res0)

end BoxResidual

namespace MpfaO

/-- A 2-D vector (`Dune::FieldVector<Scalar, 2>`). -/
abbrev Vec2 : Type := ℚ × ℚ

/-- Scalar product of two 2-D vectors (`operator*` of `FieldVector`). -/
def dot (a b : Vec2) : ℚ := a.1 * b.1 + a.2 * b.2

/-- Mirrors `vector *= s` followed by use: scaling of a 2-D vector. -/
def smul2 (s : ℚ) (a : Vec2) : Vec2 := (s * a.1, s * a.2)

/-- The sixteen flux coefficients `g111 … g224` of one interior 4-cell
interaction region, as computed at lines 532–547 of
`fvmpfaovelocity2p.hh` (`lambda * (integrationOuterNormal * K nu) / dF`).
The claims about the transmissibility construction quantify over them. -/
structure GCoeffs where
  g111 : ℚ
  g121 : ℚ
  g211 : ℚ
  g221 : ℚ
  g112 : ℚ
  g122 : ℚ
  g212 : ℚ
  g222 : ℚ
  g113 : ℚ
  g123 : ℚ
  g213 : ℚ
  g223 : ℚ
  g114 : ℚ
  g124 : ℚ
  g214 : ℚ
  g224 : ℚ

/-- Matrix `C` of the interior 4-cell case (lines 553–560); entries not
assigned by the source stay at the zero of `C(0)`. -/
def Cmat (g : GCoeffs) : Matrix (Fin 4) (Fin 4) ℚ :=
  Matrix.of
    ![![-g.g111, 0, -g.g121, 0],
      ![0, g.g114, 0, g.g124],
      ![0, -g.g213, g.g223, 0],
      ![g.g212, 0, 0, -g.g222]]

/-- Matrix `F` of the interior 4-cell case (lines 562–565). -/
def Fmat (g : GCoeffs) : Matrix (Fin 4) (Fin 4) ℚ :=
  Matrix.of
    ![![g.g111 + g.g121, 0, 0, 0],
      ![0, 0, 0, -g.g114 - g.g124],
      ![0, 0, g.g213 - g.g223, 0],
      ![0, -g.g212 + g.g222, 0, 0]]

/-- Matrix `A` of the interior 4-cell case (lines 567–578). -/
def Amat (g : GCoeffs) : Matrix (Fin 4) (Fin 4) ℚ :=
  Matrix.of
    ![![g.g111 + g.g112, 0, g.g121, -g.g122],
      ![0, g.g114 + g.g113, -g.g123, g.g124],
      ![g.g211, -g.g213, g.g223 + g.g221, 0],
      ![-g.g212, g.g214, 0, g.g222 + g.g224]]

/-- Matrix `B` of the interior 4-cell case (lines 580–587). -/
def Bmat (g : GCoeffs) : Matrix (Fin 4) (Fin 4) ℚ :=
  Matrix.of
    ![![g.g111 + g.g121, g.g112 - g.g122, 0, 0],
      ![0, 0, g.g113 - g.g123, g.g114 + g.g124],
      ![g.g211 + g.g221, 0, -g.g213 + g.g223, 0],
      ![0, -g.g212 + g.g222, 0, g.g214 + g.g224]]

/-- Mirrors `FieldMatrix::invert()` in exact arithmetic: the inverse computed by
Gaussian elimination equals `det⁻¹ • adjugate` (for a singular matrix the
source would divide by zero; exact-rational junk value `0` here). -/
def matInv (M : Matrix (Fin 4) (Fin 4) ℚ) : Matrix (Fin 4) (Fin 4) ℚ :=
  M.det⁻¹ • M.adjugate

/-- Over the field `ℚ`, `matInv` agrees with Mathlib's matrix inverse. -/
theorem matInv_eq_inv (M : Matrix (Fin 4) (Fin 4) ℚ) : matInv M = M⁻¹ := by
  rw [matInv, Matrix.inv_def, Ring.inverse_eq_inv']

/-- The transmissibility computation of lines 589–592:
`A.invert(); F += B.leftmultiply(C.rightmultiply(A));
FieldMatrix T(F);`.  In Dune, `X.rightmultiply(M)` replaces `X` by
`X * M` and `X.leftmultiply(M)` replaces `X` by `M * X`, so after the
statement `F` holds `F + (C * A⁻¹) * B`. -/
def calcT (g : GCoeffs) : Matrix (Fin 4) (Fin 4) ℚ :=
  let C := Cmat g
  let F := Fmat g
  let A := Amat g
  let B := Bmat g
  let Ainv := matInv A
  let Cright := C * Ainv
  let Bleft := Cright * B
  F + Bleft

/-- Transcription of the claim's words for the refinement comparison:
"T = F + B·(C·A⁻¹) (i.e. F plus the product of B with C·A⁻¹ in that
order)". -/
def calcTClaimOrder (g : GCoeffs) : Matrix (Fin 4) (Fin 4) ℚ :=
  Fmat g + Bmat g * (Cmat g * matInv (Amat g))

/-- Lines 594–612: the local pressure vector `u = [p1,p2,p3,p4]`, the
product `Tu`, and the two velocity contributions
`vector1 = unitOuterNormaln1 * (Tu[0] / face12vol)` and
`vector3 = unitOuterNormaln3 * (Tu[2] / face13vol)` that are accumulated
into the cell's velocity entries for the faces `isIt` and `nextisIt`. -/
def calcVelocities (g : GCoeffs) (p : Fin 4 → ℚ)
    (face12vol face13vol : ℚ) (n1 n3 : Vec2) : Vec2 × Vec2 :=
  let T := calcT g
  let Tu := T.mulVec p
  (smul2 (Tu 0 / face12vol) n1, smul2 (Tu 2 / face13vol) n3)

/-- The concrete grid implementation against which
`FVMPFAOVelocity2P::calculateVelocity` is instantiated
(`GET_PROP_VALUE(TypeTag, GridImplementation)`): the three values treated
by the `switch` at lines 186–239 of `fvmpfaovelocity2p.hh`, and a family
`other n` standing for every remaining grid implementation, all of which
reach the `default` branch. -/
inductive GridKind : Type where
  | sGrid : GridKind
  | yaspGrid : GridKind
  | ugGrid : GridKind
  | other : ℕ → GridKind
deriving DecidableEq

/-- The half-edge pairing step: from the current intersection position
`k` among `n` intersections of the cell, select the position of
`nextisIt`.  For `sGrid`/`yaspGrid` the source advances the iterator
twice with wrap-around (`k+1 = n → begin`, `k+2 = n → begin+1`,
otherwise `k+2`); for `ugGrid` it advances once with wrap-around; for any
other grid implementation it throws
`Dune::NotImplemented, "GridType can not be used with MPFAO
implementation!"`, modelled as `Except.error`. -/
def selectNextIsIt (gk : GridKind) (n k : ℕ) : Except Unit ℕ :=
  match gk with
  | .sGrid =>
      .ok (if k + 1 = n then 0 else if k + 2 = n then 1 else k + 2)
  | .yaspGrid =>
      .ok (if k + 1 = n then 0 else if k + 2 = n then 1 else k + 2)
  | .ugGrid =>
      .ok (if k + 1 = n then 0 else k + 1)
  | .other _ => .error ()

/-- The per-cell velocity field: for each cell index, one 2-D velocity
per local face number (`problem().variables().velocity()`). -/
def VelField (ι : Type) : Type := ι → ℕ → Vec2

/-- The data of one cell's traversal in `calculateVelocity`: the cell's
index, its number of intersections, and — abstracting the large
interaction-region body — the contribution the body accumulates into the
velocity field for intersection `k` paired with `nextK`. -/
structure CellData (ι : Type) where
  idx : ι
  nInt : ℕ
  contrib : ℕ → ℕ → VelField ι → VelField ι

/-- Lines 162–165: `velocity()[globalIdx1][i] = 0` for every local face
of the cell, executed before the intersection loop. -/
def zeroCellVel {ι : Type} [DecidableEq ι] (c : ι) (vf : VelField ι) :
    VelField ι :=
  fun c2 f => if c2 = c then (0, 0) else vf c2 f

/-- The intersection loop of one cell: `m` intersections remain, the
current one has position `k`.  Each iteration first performs the pairing
step (which may throw) and then lets the interaction-region body
accumulate its contribution.  The returned flag is `true` when the
`Dune::NotImplemented` exception escaped, and the field is the state of
the velocity field at that moment. -/
def runCellAux {ι : Type} (gk : GridKind) (cd : CellData ι) :
    ℕ → ℕ → VelField ι → VelField ι × Bool
  | 0, _, vf => (vf, false)
  | m + 1, k, vf =>
      match selectNextIsIt gk cd.nInt k with
      | .error _ => (vf, true)
      | .ok nextK => runCellAux gk cd m (k + 1) (cd.contrib k nextK vf)

/-- One cell's pass of `calculateVelocity`: zero the cell's velocity
entries, then run the intersection loop. -/
def runCell {ι : Type} [DecidableEq ι] (gk : GridKind) (cd : CellData ι)
    (vf : VelField ι) : VelField ι × Bool :=
  runCellAux gk cd cd.nInt 0 (zeroCellVel cd.idx vf)

/-- The element loop of `calculateVelocity` over all cells of the grid
view; an escaping exception aborts the traversal. -/
def runCells {ι : Type} [DecidableEq ι] (gk : GridKind) :
    List (CellData ι) → VelField ι → VelField ι × Bool
  | [], vf => (vf, false)
  | c :: rest, vf =>
      match runCell gk c vf with
      | (vf2, true) => (vf2, true)
      | (vf2, false) => runCells gk rest vf2

/-- The relative conservation defect of lines 2064–2072: the absolute
value of the signed sum of `velocity · unitOuterNormal · facevol` over
the four faces minus `q1 * volume1`, divided by the sum of the absolute
values of the five terms.  `v i` is the cell's velocity at local face
`i`, `nrm i` the stored unit outer normal, `fvol i` the stored face
volume. -/
def consDiff (v : Fin 4 → Vec2) (nrm : Fin 4 → Vec2) (fvol : Fin 4 → ℚ)
    (q1 volume1 : ℚ) : ℚ :=
  |dot (v 0) (nrm 0) * fvol 0 + dot (v 1) (nrm 1) * fvol 1
      + dot (v 2) (nrm 2) * fvol 2 + dot (v 3) (nrm 3) * fvol 3
      - q1 * volume1|
    / (|dot (v 0) (nrm 0) * fvol 0| + |dot (v 1) (nrm 1) * fvol 1|
      + |dot (v 2) (nrm 2) * fvol 2| + |dot (v 3) (nrm 3) * fvol 3|
      + |q1 * volume1|)

/-- The built-in conservation check (lines 2061–2085, the 2-D
total-velocity branch): compute the relative defect and, when it exceeds
`1e-8`, print a diagnostic to `std::cout`.  The returned Boolean records
whether the diagnostic was printed; the velocity field is returned as
received and no exception path exists (hence `Except.ok`
unconditionally). -/
def conservationCheck {ι : Type} (vf : VelField ι) (c : ι)
    (nrm : Fin 4 → Vec2) (fvol : Fin 4 → ℚ) (q1 volume1 : ℚ) :
    Except Unit (VelField ι × Bool) :=
  .ok (vf,
    decide (consDiff (fun i => vf c i.val) nrm fvol q1 volume1
      > 1 / 100000000))

/-- One intersection of a cell as seen by the cell-4 search of the
interior 4-cell branch: whether it has a neighbor (`neighbor()`), and
the index of the outside cell (meaningful only when it has one). -/
structure NbrIntersection where
  hasNeighbor : Bool
  outside : ℕ

/-- The quantities looked up for cell 4 once it is found: its global
index, its permeability tensor, its total mobility and its center.
Initial values (lines 355–358): `globalPos4(0)`, `K4(0)`, `lambda4 = 0`,
`globalIdx4 = 0`. -/
structure Cell4State where
  globalIdx4 : ℕ
  K4 : Matrix (Fin 2) (Fin 2) ℚ
  lambda4 : ℚ
  globalPos4 : Vec2

/-- The per-pair body of the double loop at lines 362–391: when both
intersections have a neighbor, the two outside cells coincide and differ
from cell 1, overwrite index, mobility and center of cell 4 and
accumulate (`K4 +=`) its permeability. -/
def cell4Step (cell1 : ℕ) (Kof : ℕ → Matrix (Fin 2) (Fin 2) ℚ)
    (lamOf : ℕ → ℚ) (posOf : ℕ → Vec2) (st : Cell4State)
    (a b : NbrIntersection) : Cell4State :=
  if a.hasNeighbor = true ∧ b.hasNeighbor = true
      ∧ a.outside = b.outside ∧ a.outside ≠ cell1 then
    { globalIdx4 := a.outside
      K4 := st.K4 + Kof a.outside
      lambda4 := lamOf a.outside
      globalPos4 := posOf a.outside }
  else
    st

/-- The double loop at lines 362–391: iterate `innerisIt` over the
intersections of cell 2 and, inside, `innernextisIt` over the
intersections of cell 3. -/
def findCell4 (cell1 : ℕ) (Kof : ℕ → Matrix (Fin 2) (Fin 2) ℚ)
    (lamOf : ℕ → ℚ) (posOf : ℕ → Vec2)
    (inner innernext : List NbrIntersection) : Cell4State :=
  inner.foldl
    (fun st a =>
      innernext.foldl (fun st2 b => cell4Step cell1 Kof lamOf posOf st2 a b)
        st)
    { globalIdx4 := 0, K4 := 0, lambda4 := 0, globalPos4 := (0, 0) }

/-- Line 394 (`Scalar press4 = pressure()[globalIdx4];`), executed after
the search whether or not a fourth cell was found. -/
def press4 (pressure : ℕ → ℚ) (cell1 : ℕ)
    (Kof : ℕ → Matrix (Fin 2) (Fin 2) ℚ) (lamOf : ℕ → ℚ)
    (posOf : ℕ → Vec2) (inner innernext : List NbrIntersection) : ℚ :=
  pressure (findCell4 cell1 Kof lamOf posOf inner innernext).globalIdx4

end MpfaO

namespace BoxResidual

/-- Helper: one face update does not change the column sums of the
residual. -/
lemma sum_applyFaceFlux {nV nE : ℕ} (i j : Fin nV) (f : Fin nE → ℚ)
    (r : Res nV nE) (e : Fin nE) :
    ∑ v, applyFaceFlux i j f r v e = ∑ v, r v e := by
  simp [applyFaceFlux, Finset.sum_add_distrib, Finset.sum_sub_distrib,
    Finset.sum_ite_eq']

/-- Helper: the flux loop does not change the column sums of the
residual, whatever the starting face index. -/
lemma sum_evalFluxesAux {nV nE : ℕ} (cf : ℕ → Fin nE → ℚ)
    (faces : List (Fin nV × Fin nV)) :
    ∀ (k : ℕ) (r : Res nV nE) (e : Fin nE),
      ∑ v, evalFluxesAux cf k faces r v e = ∑ v, r v e := by
  induction faces with
  | nil => intro k r e; rfl
  | cons hd tl ih =>
      intro k r e
      obtain ⟨i, j⟩ := hd
      rw [evalFluxesAux, ih, sum_applyFaceFlux]

/-- C1: for every sub-control-volume face joining sub-volumes `i` and
`j`, the flux pass subtracts the face's flux vector from `i`'s residual
and adds the identical vector to `j`'s residual in every equation
component; consequently the flux pass leaves the sum of the residual
over all sub-volumes unchanged in every component — starting from the
zeroed accumulator, the net contribution of the pass is zero. -/
theorem flux_pass_locally_conservative {nV nE : ℕ} :
    (∀ (i j : Fin nV) (f : Fin nE → ℚ) (r : Res nV nE) (e : Fin nE),
      i ≠ j →
        applyFaceFlux i j f r i e = r i e - f e
          ∧ applyFaceFlux i j f r j e = r j e + f e)
    ∧ ∀ (inp : EvalInput nV nE) (r : Res nV nE) (e : Fin nE),
        ∑ v, evalFluxes_ inp r v e = ∑ v, r v e := by
  constructor
  · intro i j f r e hij
    constructor
    · simp [applyFaceFlux, hij]
    · simp [applyFaceFlux, Ne.symm hij]
  · intro inp r e
    rw [evalFluxes_, sum_evalFluxesAux]

/-- Witness for C1 at a concrete two-vertex, one-equation instance. -/
theorem flux_pass_locally_conservative_witness :
    @applyFaceFlux 2 1 0 1 (fun _ => 3) (fun _ _ => 10) 0 0 = 7
      ∧ @applyFaceFlux 2 1 0 1 (fun _ => 3) (fun _ _ => 10) 1 0 = 13 := by
  have h :=
    (@flux_pass_locally_conservative 2 1).1 0 1 (fun _ => 3)
      (fun _ _ => 10) 0 (by decide)
  exact ⟨h.1.trans (by norm_num), h.2.trans (by norm_num)⟩

/-- C2: if the boundary classification of sub-volume `i` marks equation
`e` as Dirichlet, the full residual evaluation ends with
`residual[i][e] = curPrimaryVars[pvIdx] - dirichletValue[pvIdx]`
(`pvIdx = eqToDirichletIndex(e)`): the Dirichlet pass runs last and
overwrites the entry, erasing whatever the flux, storage, source and
Neumann passes accumulated there. -/
theorem dirichlet_overwrites_residual {nV nE : ℕ} (inp : EvalInput nV nE)
    (res0 : Res nV nE) (i : Fin nV) (e : Fin nE)
    (h : inp.isDirichlet i e = true) :
    eval nV nE inp res0 i e =
      inp.curPrimaryVars i (inp.eqToDirichletIndex i e)
        - inp.dirichletValues i (inp.eqToDirichletIndex i e) := by
  have hd : elemHasDirichlet inp := ⟨i, e, h⟩
  simp [eval, hd, evalDirichlet_, h]

/-- Concrete evaluation input for the Dirichlet witness: one sub-volume,
one equation, Dirichlet everywhere, current primary variable 5,
prescribed value 2. -/
def inpDirichlet : EvalInput 1 1 where
  faces := []
  computeFlux := fun _ _ => 0
  storage := fun _ _ _ => 0
  source := fun _ _ => 0
  volume := fun _ => 1
  dt := 1
  isDirichlet := fun _ _ => true
  eqToDirichletIndex := fun _ e => e
  isNeumann := fun _ _ => false
  neumannSegs := []
  curPrimaryVars := fun _ _ => 5
  dirichletValues := fun _ _ => 2

/-- Witness for C2: on `inpDirichlet` the residual entry ends at
`5 - 2 = 3`. -/
theorem dirichlet_overwrites_residual_witness :
    eval 1 1 inpDirichlet (fun _ _ => 0) 0 0 = 3 := by
  have h := dirichlet_overwrites_residual inpDirichlet (fun _ _ => 0) 0 0 rfl
  rw [h]
  norm_num [inpDirichlet]

/-- C3: the volume-term pass adds
`(storage(current) - storage(previous)) * volume / dt` and subtracts
`source * volume` for every sub-volume and equation, and the
storage-only entry point produces `storage(current) * volume` — built
from the same `storage` function as the full evaluation. -/
theorem volume_terms_and_storage_only {nV nE : ℕ} (inp : EvalInput nV nE)
    (r : Res nV nE) (i : Fin nV) (e : Fin nE) :
    evalVolumeTerms_ inp r i e =
      r i e
        + (inp.storage false i e - inp.storage true i e)
          * inp.volume i / inp.dt
        - inp.source i e * inp.volume i
    ∧ evalStorage_ inp i e = inp.storage false i e * inp.volume i := by
  constructor
  · show r i e
        + (inp.storage false i e - inp.storage true i e)
          * (inp.volume i / inp.dt)
        - inp.source i e * inp.volume i = _
    ring
  · rfl

/-- C6: the residual accumulator is resized and zeroed at the start of
every evaluation, so the result does not depend on the residual state
left by an earlier call; in particular a second call with identical
inputs returns exactly the first call's result. -/
theorem eval_repeatable {nV nE : ℕ} (inp : EvalInput nV nE) :
    (∀ r1 r2 : Res nV nE, eval nV nE inp r1 = eval nV nE inp r2)
    ∧ ∀ r : Res nV nE, eval nV nE inp (eval nV nE inp r) = eval nV nE inp r := by
  exact ⟨fun _ _ => rfl, fun _ => rfl⟩

end BoxResidual

namespace BoxResidual

/-- Concrete evaluation input refuting the "only Neumann-classified
components" reading of the boundary pass: one sub-volume, two equations,
only equation 0 is Neumann-classified, yet the problem's Neumann vector
carries the value 5 in component 1; one boundary segment of area 2. -/
def inpNeumannMixed : EvalInput 1 2 where
  faces := []
  computeFlux := fun _ _ => 0
  storage := fun _ _ _ => 0
  source := fun _ _ => 0
  volume := fun _ => 1
  dt := 1
  isDirichlet := fun _ _ => false
  eqToDirichletIndex := fun _ e => e
  isNeumann := fun _ e => decide (e = 0)
  neumannSegs := [(0, 2, fun e => if e = 0 then 3 else 5)]
  curPrimaryVars := fun _ _ => 0
  dirichletValues := fun _ _ => 0

/-- C4, counterexample: equation 1 of the single sub-volume is not
Neumann-classified, yet the boundary pass adds `5 * 2 = 10` to that
residual component: `evalNeumannSegment_` adds the scaled Neumann vector
to every equation component once the sub-volume has some
Neumann-classified equation. -/
theorem neumann_only_classified_counterexample :
    inpNeumannMixed.isNeumann 0 1 = false
      ∧ evalNeumannSegment_ inpNeumannMixed 0 2
          (fun e => if e = 0 then 3 else 5) (fun _ _ => 0) 0 1 = 10 := by
  have hs : scvHasNeumann inpNeumannMixed 0 := ⟨0, rfl⟩
  refine ⟨rfl, ?_⟩
  simp [evalNeumannSegment_, hs]
  norm_num

/-- C4, amended: whenever a sub-volume on a boundary segment has at
least one Neumann-classified equation, the boundary pass adds the
prescribed Neumann flux times the boundary face area to the sub-volume's
residual in every equation component — the addition is not restricted to
the Neumann-classified components — and leaves every other sub-volume's
residual unchanged. -/
theorem neumann_segment_adds_all_components {nV nE : ℕ}
    (inp : EvalInput nV nE) (scvIdx : Fin nV) (area : ℚ)
    (values : Fin nE → ℚ) (r : Res nV nE)
    (h : scvHasNeumann inp scvIdx) :
    (∀ e, evalNeumannSegment_ inp scvIdx area values r scvIdx e
        = r scvIdx e + values e * area)
    ∧ ∀ (v : Fin nV) (e : Fin nE), v ≠ scvIdx →
        evalNeumannSegment_ inp scvIdx area values r v e = r v e := by
  constructor
  · intro e
    simp [evalNeumannSegment_, h]
  · intro v e hv
    simp [evalNeumannSegment_, h, hv]

/-- Witness for the amended C4 on the concrete mixed-classification
input. -/
theorem neumann_segment_adds_all_components_witness :
    evalNeumannSegment_ inpNeumannMixed 0 2 (fun e => if e = 0 then 3 else 5)
        (fun _ _ => 0) 0 1 = 10 := by
  have h :=
    (neumann_segment_adds_all_components inpNeumannMixed 0 2
      (fun e => if e = 0 then 3 else 5) (fun _ _ => 0)
      ⟨0, by decide⟩).1 1
  rw [h]
  norm_num

/-- C5: the one-argument entry point `eval(element)` calls
`problem_().updateCouplingParams(element)` before delegating to the
five-argument `eval`; with a coupling-parameter hook that actually
updates something (here: a counter), the problem state observed by the
caller after the call differs from the state before it.  The source
itself documents at the call site that the problem's internal state "is
not supposed to be changed during the evaluation of the residual" and
labels the call a hack. -/
theorem eval_element_mutates_problem_state :
    (evalElement 1 1 Nat.succ 0 inpDirichlet (fun _ _ => 0)).1 ≠ 0 := by
  decide

end BoxResidual

namespace MpfaO

/-- C7, amended: in the interior 4-cell case the transmissibility
actually computed by the in-place matrix sequence
(`A.invert(); F += B.leftmultiply(C.rightmultiply(A))`) is
`T = F + (C·A⁻¹)·B` — the product of `C·A⁻¹` with `B`, in that order,
matching the source comment `T = CA^{-1}B+F` — and the two half-face
velocities are the unit outer normals scaled by `(T·u)[0]/face12vol`
and `(T·u)[2]/face13vol` with `u = [p1,p2,p3,p4]`. -/
theorem transmissibility_and_velocities (g : GCoeffs) (p : Fin 4 → ℚ)
    (face12vol face13vol : ℚ) (n1 n3 : Vec2) :
    calcVelocities g p face12vol face13vol n1 n3 =
      (smul2 (((Fmat g + Cmat g * (Amat g)⁻¹ * Bmat g).mulVec p) 0
          / face12vol) n1,
        smul2 (((Fmat g + Cmat g * (Amat g)⁻¹ * Bmat g).mulVec p) 2
          / face13vol) n3) := by
  simp only [calcVelocities, calcT, matInv_eq_inv]

/-- Helper: the exact-arithmetic inverse of the identity matrix. -/
lemma matInv_one : matInv (1 : Matrix (Fin 4) (Fin 4) ℚ) = 1 := by
  simp [matInv]

/-- Concrete flux coefficients for the C7 counterexample:
`g111 = g221 = g113 = g224 = 1`, all others zero; they make `A` the
identity matrix. -/
def gCex : GCoeffs where
  g111 := 1
  g121 := 0
  g211 := 0
  g221 := 1
  g112 := 0
  g122 := 0
  g212 := 0
  g222 := 0
  g113 := 1
  g123 := 0
  g213 := 0
  g223 := 0
  g114 := 0
  g124 := 0
  g214 := 0
  g224 := 1

/-- C7, counterexample: with the coefficients `gCex` the matrix computed
by the source, `F + (C·A⁻¹)·B`, differs from the claim's
`F + B·(C·A⁻¹)` (they disagree at entry (2,0): 0 versus -1). -/
theorem transmissibility_order_counterexample :
    calcT gCex ≠ calcTClaimOrder gCex := by
  have hA : Amat gCex = 1 := by
    ext i j
    fin_cases i <;> fin_cases j <;>
      simp [Amat, gCex, Matrix.one_apply, Matrix.vecHead, Matrix.vecTail] <;>
      norm_num
  have h1 : calcT gCex = Fmat gCex + Cmat gCex * Bmat gCex := by
    simp only [calcT, hA, matInv_one, mul_one]
  have h2 : calcTClaimOrder gCex
      = Fmat gCex + Bmat gCex * Cmat gCex := by
    simp only [calcTClaimOrder, hA, matInv_one, mul_one]
  have hl : (Fmat gCex + Cmat gCex * Bmat gCex) 2 0 = 0 := by
    simp [Matrix.add_apply, Matrix.mul_apply, Fin.sum_univ_four,
      Fmat, Cmat, Bmat, gCex, Matrix.vecHead, Matrix.vecTail]
  have hr : (Fmat gCex + Bmat gCex * Cmat gCex) 2 0 = -1 := by
    simp [Matrix.add_apply, Matrix.mul_apply, Fin.sum_univ_four,
      Fmat, Cmat, Bmat, gCex, Matrix.vecHead, Matrix.vecTail]
  rw [h1, h2]
  intro h
  have h20 := Matrix.ext_iff.mpr h 2 0
  rw [hl, hr] at h20
  exact absurd h20 (by norm_num)

end MpfaO

namespace MpfaO

/-- Helper: for the three supported grid implementations the pairing
step always succeeds, so the intersection loop of a cell never raises
the error flag. -/
lemma runCellAux_supported_ok {ι : Type} (gk : GridKind)
    (h : gk = GridKind.sGrid ∨ gk = GridKind.yaspGrid
      ∨ gk = GridKind.ugGrid)
    (cd : CellData ι) :
    ∀ (m k : ℕ) (vf : VelField ι), (runCellAux gk cd m k vf).2 = false := by
  intro m
  induction m with
  | zero => intro k vf; rfl
  | succ m ih =>
      intro k vf
      rcases h with h | h | h <;> subst h <;>
        simp [runCellAux, selectNextIsIt, ih]

/-- Helper: the element loop never raises the error flag on a supported
grid implementation. -/
lemma runCells_supported_ok {ι : Type} [DecidableEq ι] (gk : GridKind)
    (h : gk = GridKind.sGrid ∨ gk = GridKind.yaspGrid
      ∨ gk = GridKind.ugGrid) :
    ∀ (cds : List (CellData ι)) (vf : VelField ι),
      (runCells gk cds vf).2 = false := by
  intro cds
  induction cds with
  | nil => intro vf; rfl
  | cons c rest ih =>
      intro vf
      have hc := runCellAux_supported_ok gk h c c.nInt 0 (zeroCellVel c.idx vf)
      rw [runCells]
      rcases hcase : runCell gk c vf with ⟨vf2, b⟩
      have hb : b = false := by
        have h2 : (runCell gk c vf).2 = false := hc
        rw [hcase] at h2
        exact h2
      subst hb
      simp [ih]

/-- C8, amended: on any grid implementation other than SGrid, YaspGrid
and UGGrid, the velocity computation raises the fatal
"GridType can not be used with MPFAO implementation!" exception while
pairing the half-edges of the first intersection of the first cell —
after the re-zeroing of that cell's velocity entries but before any flux
is computed or any computed velocity is written; on the three supported
implementations the error branch is never taken. -/
theorem unsupported_grid_aborts {ι : Type} [DecidableEq ι] :
    (∀ (n : ℕ) (cd : CellData ι) (cds : List (CellData ι))
        (vf : VelField ι),
      cd.nInt ≠ 0 →
        runCells (GridKind.other n) (cd :: cds) vf
          = (zeroCellVel cd.idx vf, true))
    ∧ ∀ gk : GridKind,
        (gk = GridKind.sGrid ∨ gk = GridKind.yaspGrid
          ∨ gk = GridKind.ugGrid) →
          ∀ (cds : List (CellData ι)) (vf : VelField ι),
            (runCells gk cds vf).2 = false := by
  constructor
  · intro n cd cds vf hn
    obtain ⟨m, hm⟩ : ∃ m, cd.nInt = m + 1 :=
      ⟨cd.nInt - 1, (Nat.succ_pred_eq_of_pos (Nat.pos_of_ne_zero hn)).symm⟩
    rw [runCells, runCell, hm]
    rfl
  · exact fun gk h cds vf => runCells_supported_ok gk h cds vf

/-- Concrete cell for the C8 counterexample and witness: cell index 0,
one intersection, an interaction-region body that never touches the
field. -/
def cdCex : CellData ℕ where
  idx := 0
  nInt := 1
  contrib := fun _ _ vf => vf

/-- Concrete initial velocity field for the C8 counterexample: every
entry is (1, 1). -/
def vfCex : VelField ℕ := fun _ _ => (1, 1)

/-- C8, counterexample: on an unsupported grid implementation the fatal
error is raised, but not before the first cell's velocity entries have
been overwritten with zeros — the velocity field visible after the
exception differs from the field before the call, refuting the claim
that the error precedes any velocity write. -/
theorem unsupported_grid_counterexample :
    (runCells (GridKind.other 0) [cdCex] vfCex).2 = true
      ∧ (runCells (GridKind.other 0) [cdCex] vfCex).1 0 0 ≠ vfCex 0 0 := by
  have hrun : runCells (GridKind.other 0) [cdCex] vfCex
      = (zeroCellVel cdCex.idx vfCex, true) := by
    rw [runCells, runCell]
    rfl
  rw [hrun]
  refine ⟨rfl, ?_⟩
  simp [zeroCellVel, cdCex, vfCex]

/-- Witness for the amended C8 at the concrete cell `cdCex`. -/
theorem unsupported_grid_aborts_witness :
    runCells (GridKind.other 0) [cdCex] vfCex
        = (zeroCellVel cdCex.idx vfCex, true)
      ∧ (runCells GridKind.ugGrid [cdCex] vfCex).2 = false := by
  constructor
  · exact (@unsupported_grid_aborts ℕ _).1 0 cdCex [] vfCex (by decide)
  · exact (@unsupported_grid_aborts ℕ _).2 GridKind.ugGrid
      (Or.inr (Or.inr rfl)) [cdCex] vfCex

/-- C9: the 2-D conservation check computes the relative defect between
the signed sum of the four face fluxes and the cell's source times its
volume; it returns the velocity field unchanged and never takes an error
path — its only outcome is the Boolean "a diagnostic line was printed",
which is set exactly when the defect exceeds `1e-8`. -/
theorem conservation_check_diagnostic_only {ι : Type} (vf : VelField ι)
    (c : ι) (nrm : Fin 4 → Vec2) (fvol : Fin 4 → ℚ) (q1 volume1 : ℚ) :
    ∃ b : Bool,
      conservationCheck vf c nrm fvol q1 volume1 = .ok (vf, b)
        ∧ (b = true
            ↔ consDiff (fun i => vf c i.val) nrm fvol q1 volume1
                > 1 / 100000000) := by
  refine ⟨_, rfl, ?_⟩
  simp

end MpfaO

namespace MpfaO

/-- Helper: a fold whose step fixes the accumulator on every list
element returns the initial accumulator. -/
lemma foldl_fixed {α β : Type} (l : List β) (f : α → β → α)
    (h : ∀ b ∈ l, ∀ a, f a b = a) : ∀ a, l.foldl f a = a := by
  induction l with
  | nil => intro a; rfl
  | cons x xs ih =>
      intro a
      rw [List.foldl_cons, h x (List.mem_cons_self x xs),
        ih (fun b hb a2 => h b (List.mem_cons_of_mem x hb) a2)]

/-- C10: when no pair of intersections of cell 2 and cell 3 yields a
common neighbor distinct from cell 1, the search of the interior 4-cell
branch finishes without any error indication, leaving the defaults
`globalIdx4 = 0`, `K4 = 0`, `lambda4 = 0`, `globalPos4 = (0,0)`, and the
subsequent pressure lookup reads the pressure of the unrelated cell with
global index 0. -/
theorem cell4_search_silent_defaults (cell1 : ℕ)
    (Kof : ℕ → Matrix (Fin 2) (Fin 2) ℚ) (lamOf : ℕ → ℚ)
    (posOf : ℕ → Vec2) (inner innernext : List NbrIntersection)
    (pressure : ℕ → ℚ)
    (h : ∀ a ∈ inner, ∀ b ∈ innernext,
      ¬(a.hasNeighbor = true ∧ b.hasNeighbor = true
        ∧ a.outside = b.outside ∧ a.outside ≠ cell1)) :
    findCell4 cell1 Kof lamOf posOf inner innernext
        = { globalIdx4 := 0, K4 := 0, lambda4 := 0, globalPos4 := (0, 0) }
      ∧ press4 pressure cell1 Kof lamOf posOf inner innernext
        = pressure 0 := by
  have hfind : findCell4 cell1 Kof lamOf posOf inner innernext
      = { globalIdx4 := 0, K4 := 0, lambda4 := 0, globalPos4 := (0, 0) } := by
    rw [findCell4]
    apply foldl_fixed
    intro a ha st
    apply foldl_fixed
    intro b hb st2
    rw [cell4Step, if_neg (h a ha b hb)]
  refine ⟨hfind, ?_⟩
  rw [press4, hfind]

/-- Witness for C10: cell 2 has one neighboring intersection (towards
cell 5), cell 3 has one non-neighbor intersection, so no common fourth
cell exists; the searched state stays at the defaults and the pressure
of cell 0 (here 11) is read. -/
theorem cell4_search_silent_defaults_witness :
    press4 (fun n => if n = 0 then 11 else 99) 7 (fun _ => 0) (fun _ => 0)
        (fun _ => (0, 0)) [⟨true, 5⟩] [⟨false, 5⟩] = 11 := by
  have h := cell4_search_silent_defaults 7 (fun _ => 0) (fun _ => 0)
    (fun _ => (0, 0)) [⟨true, 5⟩] [⟨false, 5⟩]
    (fun n => if n = 0 then 11 else 99) (by decide)
  rw [h.2]
  norm_num

end MpfaO
